import Mathlib

/-!
Verification of the HTTP request-target fragment (src/uri.rs): the
RequestUri variant type, the PathQueryFragment structure, and the
query_pairs decoding helper.
-/

namespace HyperUri

/-- Modelled from the spec: the payload of the absolute-form variant is
"a fully parsed URI value" produced by the external url library, whose
internals are outside this fragment; it is carried here as an opaque
serialized form. -/
structure Url where
  serialization : String
deriving DecidableEq, Repr

/-- An absolute URL path as seen by a server, such as /where?q=now
(struct PathQueryFragment in src/uri.rs): path segments, optional raw
query string, optional raw fragment string. -/
structure PathQueryFragment where
  path : List String
  query : Option String
  fragment : Option String
deriving DecidableEq, Repr

/-- The Request-URI of a request start line (enum RequestUri in
src/uri.rs): origin-form, absolute-form, authority-form, asterisk-form. -/
inductive RequestUri where
  | AbsolutePath : PathQueryFragment → RequestUri
  | AbsoluteUri : Url → RequestUri
  | Authority : String → RequestUri
  | Star : RequestUri
deriving DecidableEq, Repr

/-- Value of a hexadecimal digit character, none for a non-hex digit. -/
def hexVal (c : Char) : Option Nat :=
  if '0' ≤ c ∧ c ≤ '9' then some (c.toNat - '0'.toNat)
  else if 'a' ≤ c ∧ c ≤ 'f' then some (c.toNat - 'a'.toNat + 10)
  else if 'A' ≤ c ∧ c ≤ 'F' then some (c.toNat - 'A'.toNat + 10)
  else none

/-- Modelled from the spec: the character-level decoding step of the
form-urlencoded convention used by url form_urlencoded parse, which
src/uri.rs line 68 calls but whose code is not part of this repository.
A plus sign decodes to a space, a valid percent-escape decodes to the
byte it denotes, and a malformed percent-escape passes through
literally instead of failing. -/
def formDecodeAux : Nat → List Char → List Char
  | 0, _ => []
  | _, [] => []
  | fuel + 1, c :: rest =>
    if c = '+' then ' ' :: formDecodeAux fuel rest
    else if c = '%' then
      match rest with
      | h1 :: h2 :: rest2 =>
        match hexVal h1, hexVal h2 with
        | some a, some b => Char.ofNat (16 * a + b) :: formDecodeAux fuel rest2
        | _, _ => '%' :: formDecodeAux fuel rest
      | _ => '%' :: formDecodeAux fuel rest
    else c :: formDecodeAux fuel rest

/-- The decoding step at full fuel: the fuel equals the input length and
every step consumes at least one character, so the fuel never runs out. -/
def formDecode (l : List Char) : List Char :=
  formDecodeAux l.length l

/-- Split a character list on every ampersand delimiter. -/
def splitAmp : List Char → List (List Char)
  | [] => [[]]
  | c :: rest =>
    if c = '&' then [] :: splitAmp rest
    else
      match splitAmp rest with
      | [] => [[c]]
      | p :: ps => (c :: p) :: ps

/-- Split a piece at the first equals sign; with no equals sign the
whole piece is the key and the value is empty. -/
def splitEq : List Char → List Char × List Char
  | [] => ([], [])
  | c :: rest =>
    if c = '=' then ([], rest)
    else
      let kv := splitEq rest
      (c :: kv.1, kv.2)

/-- Modelled from the spec: decoding of one ampersand-delimited piece in
the form-urlencoded convention; an empty piece yields no pair at all,
a non-empty piece yields one key/value pair with both sides decoded. -/
def parsePiece (piece : List Char) : List (String × String) :=
  if piece = [] then []
  else
    let kv := splitEq piece
    [(String.mk (formDecode kv.1), String.mk (formDecode kv.2))]

/-- Modelled from the spec: url form_urlencoded parse, the external
decoder called by query_pairs in src/uri.rs; split on ampersands, decode
each piece, preserve duplicates and encounter order. -/
def form_urlencoded_parse (input : String) : List (String × String) :=
  ((splitAmp input.data).map parsePiece).flatten

/-- Parse the query string, if any, as application/x-www-form-urlencoded
and return key/value pairs (method query_pairs in src/uri.rs). -/
def PathQueryFragment.query_pairs (s : PathQueryFragment) :
    Option (List (String × String)) :=
  s.query.map (fun q => form_urlencoded_parse q)

/-- Payload recovered by pattern-matching an origin-form value. -/
def RequestUri.absolutePathPayload : RequestUri → Option PathQueryFragment
  | .AbsolutePath p => some p
  | _ => none

/-- Payload recovered by pattern-matching an absolute-form value. -/
def RequestUri.absoluteUriPayload : RequestUri → Option Url
  | .AbsoluteUri u => some u
  | _ => none

/-- Payload recovered by pattern-matching an authority-form value. -/
def RequestUri.authorityPayload : RequestUri → Option String
  | .Authority a => some a
  | _ => none

/-- Whether a value is the asterisk form. -/
def RequestUri.isStar : RequestUri → Bool
  | .Star => true
  | _ => false

/-- Claim C1: whenever the query is present, query_pairs decodes it by
splitting on ampersands and splitting each piece at the first equals
sign, preserving duplicate keys and encounter order; in particular the
query q=now gives the single pair (q, now) and a=1&a=2 gives both
duplicate pairs in that order. -/
theorem query_pairs_decodes_present_query (s : PathQueryFragment)
    (q : String) (h : s.query = some q) :
    s.query_pairs = some (((splitAmp q.data).map parsePiece).flatten)
    ∧ (PathQueryFragment.mk [] (some "q=now") none).query_pairs
        = some [("q", "now")]
    ∧ (PathQueryFragment.mk [] (some "a=1&a=2") none).query_pairs
        = some [("a", "1"), ("a", "2")] := by
  refine ⟨?_, by decide, by decide⟩
  simp [PathQueryFragment.query_pairs, h, form_urlencoded_parse]

/-- Witness for claim C1 at a concrete fragment with query x=y. -/
theorem query_pairs_decodes_present_query_witness :
    (PathQueryFragment.mk [] (some "x=y") none).query_pairs
      = some (((splitAmp ("x=y").data).map parsePiece).flatten) :=
  (query_pairs_decodes_present_query
    (PathQueryFragment.mk [] (some "x=y") none) "x=y" rfl).1

/-- Claim C2 as stated is false: in query decoding a plus sign does not
stay a literal plus, so the query k=a+b does not decode to the pair with
value a+b. -/
theorem query_pairs_plus_literal_counterexample :
    (PathQueryFragment.mk [] (some "k=a+b") none).query_pairs
      ≠ some [("k", "a+b")] := by decide

/-- Claim C2 amended: per the form-urlencoded convention a plus sign in
the query decodes to a space character; query_pairs on the query k=a+b
yields the single pair with key k and value a b, with a space. -/
theorem query_pairs_plus_decodes_to_space :
    (PathQueryFragment.mk [] (some "k=a+b") none).query_pairs
      = some [("k", "a b")] := by decide

/-- Claim C3: on a fragment with no query at all, query_pairs returns an
absent result, not an empty sequence of pairs. -/
theorem query_pairs_absent_query (s : PathQueryFragment)
    (h : s.query = none) : s.query_pairs = none := by
  simp [PathQueryFragment.query_pairs, h]

/-- Witness for claim C3 at a concrete fragment without a query. -/
theorem query_pairs_absent_query_witness :
    (PathQueryFragment.mk ["where"] none none).query_pairs = none :=
  query_pairs_absent_query (PathQueryFragment.mk ["where"] none none) rfl

/-- Claim C4: query_pairs percent-decodes both key and value; the escape
sequence in the query k=a%20b decodes to a space character, giving the
single pair with key k and value a b. -/
theorem query_pairs_percent_decodes :
    (PathQueryFragment.mk [] (some "k=a%20b") none).query_pairs
      = some [("k", "a b")] := by decide

/-- Claim C5: a query piece containing no equals sign decodes to a pair
whose key is the whole piece and whose value is the empty string. -/
theorem query_pairs_piece_without_equals :
    (PathQueryFragment.mk [] (some "flag") none).query_pairs
      = some [("flag", "")] := by decide

/-- Claim C6: query_pairs is total over an arbitrary present query,
always returning a present sequence of pairs; malformed percent escapes
such as a %zz escape or a trailing percent pass through literally
instead of failing. -/
theorem query_pairs_total (s : PathQueryFragment) (q : String)
    (h : s.query = some q) :
    (∃ l, s.query_pairs = some l)
    ∧ (PathQueryFragment.mk [] (some "%zz") none).query_pairs
        = some [("%zz", "")]
    ∧ (PathQueryFragment.mk [] (some "k=%") none).query_pairs
        = some [("k", "%")] := by
  refine ⟨⟨form_urlencoded_parse q, ?_⟩, by decide, by decide⟩
  simp [PathQueryFragment.query_pairs, h]

/-- Witness for claim C6 at a concrete fragment with a malformed
percent escape in its query. -/
theorem query_pairs_total_witness :
    (∃ l, (PathQueryFragment.mk [] (some "%zz") none).query_pairs = some l)
    ∧ (PathQueryFragment.mk [] (some "%zz") none).query_pairs
        = some [("%zz", "")]
    ∧ (PathQueryFragment.mk [] (some "k=%") none).query_pairs
        = some [("k", "%")] :=
  query_pairs_total (PathQueryFragment.mk [] (some "%zz") none) "%zz" rfl

/-- Claim C7: RequestUri is a closed type with exactly four mutually
exclusive variants, and for each variant constructing a value from a
payload and pattern-matching on it recovers exactly the original
payload. -/
theorem requestUri_four_variant_roundtrip (p : PathQueryFragment)
    (u : Url) (a : String) (r : RequestUri) :
    (RequestUri.AbsolutePath p).absolutePathPayload = some p
    ∧ (RequestUri.AbsoluteUri u).absoluteUriPayload = some u
    ∧ (RequestUri.Authority a).authorityPayload = some a
    ∧ (RequestUri.Star).isStar = true
    ∧ RequestUri.AbsolutePath p ≠ RequestUri.AbsoluteUri u
    ∧ RequestUri.AbsolutePath p ≠ RequestUri.Authority a
    ∧ RequestUri.AbsolutePath p ≠ RequestUri.Star
    ∧ RequestUri.AbsoluteUri u ≠ RequestUri.Authority a
    ∧ RequestUri.AbsoluteUri u ≠ RequestUri.Star
    ∧ RequestUri.Authority a ≠ RequestUri.Star
    ∧ ((∃ p0, r = RequestUri.AbsolutePath p0)
        ∨ (∃ u0, r = RequestUri.AbsoluteUri u0)
        ∨ (∃ a0, r = RequestUri.Authority a0)
        ∨ r = RequestUri.Star) := by
  refine ⟨rfl, rfl, rfl, rfl,
    fun hc => RequestUri.noConfusion hc, fun hc => RequestUri.noConfusion hc,
    fun hc => RequestUri.noConfusion hc, fun hc => RequestUri.noConfusion hc,
    fun hc => RequestUri.noConfusion hc, fun hc => RequestUri.noConfusion hc, ?_⟩
  cases r with
  | AbsolutePath p0 => exact Or.inl ⟨p0, rfl⟩
  | AbsoluteUri u0 => exact Or.inr (Or.inl ⟨u0, rfl⟩)
  | Authority a0 => exact Or.inr (Or.inr (Or.inl ⟨a0, rfl⟩))
  | Star => exact Or.inr (Or.inr (Or.inr rfl))

/-- Claim C8: equality on RequestUri is structural and total; two
origin-form values are equal exactly when their path, query and fragment
fields all agree, and the asterisk form equals itself while differing
from every other variant regardless of payload. -/
theorem requestUri_structural_equality (p q : PathQueryFragment)
    (u : Url) (a : String) (r r2 : RequestUri) :
    (RequestUri.AbsolutePath p = RequestUri.AbsolutePath q
      ↔ p.path = q.path ∧ p.query = q.query ∧ p.fragment = q.fragment)
    ∧ RequestUri.Star = RequestUri.Star
    ∧ RequestUri.Star ≠ RequestUri.AbsolutePath p
    ∧ RequestUri.Star ≠ RequestUri.AbsoluteUri u
    ∧ RequestUri.Star ≠ RequestUri.Authority a
    ∧ (r = r2 ∨ r ≠ r2) := by
  refine ⟨?_, rfl, fun hc => RequestUri.noConfusion hc,
    fun hc => RequestUri.noConfusion hc,
    fun hc => RequestUri.noConfusion hc, Decidable.em _⟩
  cases p
  cases q
  simp

/-- Claim C9: query_pairs distinguishes an absent query from a present
but empty query: with the empty-string query the result is a present
empty sequence, with no query the result is absent, and the two results
are never equal. -/
theorem query_pairs_absent_vs_empty (pa : List String)
    (fr : Option String) :
    (PathQueryFragment.mk pa (some "") fr).query_pairs = some []
    ∧ (PathQueryFragment.mk pa none fr).query_pairs = none
    ∧ some ([] : List (String × String))
        ≠ (none : Option (List (String × String))) :=
  ⟨rfl, rfl, fun hc => Option.noConfusion hc⟩

/-- Claim C10: empty pieces produced by splitting the query on
ampersands give no pair at all: consecutive, leading or trailing
delimiters are skipped, and the empty query yields the empty sequence
of pairs. -/
theorem query_pairs_skips_empty_pieces :
    (PathQueryFragment.mk [] (some "a=1&&b=2") none).query_pairs
      = some [("a", "1"), ("b", "2")]
    ∧ (PathQueryFragment.mk [] (some "&a=1") none).query_pairs
        = some [("a", "1")]
    ∧ (PathQueryFragment.mk [] (some "a=1&") none).query_pairs
        = some [("a", "1")]
    ∧ (PathQueryFragment.mk [] (some "") none).query_pairs = some [] :=
  ⟨by decide, by decide, by decide, by decide⟩

end HyperUri
